import Mathlib

/-!
Shallow embedding of `crates/config/src/zksolc_config.rs` (zkSolc compiler
configuration module): the configuration model (`Settings`, `Optimizer`,
`ZkSolcConfig`), the configuration builder (`ZkSolcConfigBuilder`), and the
order-preserving compiler-input serializer (`ZkStandardJsonCompilerInput`,
whose `sources` field is serialized through `serde_helpers::tuple_vec_map`).

JSON documents are modelled as an inductive with objects as ordered lists of
key/value pairs, which is exactly what a serde serializer emits: key order is
significant and duplicate keys can occur in an emitted document.
-/

namespace FoundryZkSync

/-- A JSON document. An object is an ordered list of key/value pairs: the
order in which a serializer writes the fields, with duplicates possible. -/
inductive Json where
  | null : Json
  | bool (b : Bool) : Json
  | num (n : Int) : Json
  | str (s : String) : Json
  | arr (elems : List Json) : Json
  | obj (fields : List (String × Json)) : Json

/-- The keys of a JSON object, in document order (empty for non-objects). -/
def Json.objKeys : Json → List String
  | .obj fields => fields.map Prod.fst
  | _ => []

/-- Standard JSON object access semantics: a parser that loads an object into
a native map lets a later duplicate key overwrite an earlier one, so the
value observed for a key is that of its LAST occurrence in the document. -/
def Json.objGetLast (j : Json) (k : String) : Option Json :=
  match j with
  | .obj fields => ((fields.filter fun f => f.1 == k).getLast?).map Prod.snd
  | _ => none

/-- Field lookup used when deserializing a struct from a JSON object
(first occurrence; the structs' serializers never emit duplicate keys). -/
def getField (fields : List (String × Json)) (name : String) : Option Json :=
  List.lookup name fields

/-- serde: serialize an `Option` without `skip_serializing_if`:
`None` becomes `null`, `Some` serializes the payload. -/
def optionToJson {α : Type} (f : α → Json) : Option α → Json
  | none => Json.null
  | some a => f a

/-- serde: deserialize an `Option<T>` struct field: a missing key or a
`null` value is `None`, anything else is parsed as `T`. -/
def parseOptionField {α : Type} (fields : List (String × Json)) (name : String)
    (p : Json → Except String α) : Except String (Option α) :=
  match getField fields name with
  | none => .ok none
  | some .null => .ok none
  | some v => (p v).map some

/-- serde: a struct field with neither a default nor `Option` type errors
when the key is missing. -/
def requiredField {α : Type} (fields : List (String × Json)) (name : String)
    (p : Json → Except String α) : Except String α :=
  match getField fields name with
  | none => .error ("missing field " ++ name)
  | some v => p v

/-- serde: a struct field marked `#[serde(default)]` falls back to its
type's default when the key is missing. -/
def defaultableField {α : Type} (fields : List (String × Json)) (name : String)
    (d : α) (p : Json → Except String α) : Except String α :=
  match getField fields name with
  | none => .ok d
  | some v => p v

def parseBool : Json → Except String Bool
  | .bool b => .ok b
  | _ => .error "expected bool"

def parseString : Json → Except String String
  | .str s => .ok s
  | _ => .error "expected string"

/-- serde: deserialize a sequence element by element, stopping at the
first failing element. -/
def exceptMapList {α β : Type} (f : α → Except String β) :
    List α → Except String (List β)
  | [] => .ok []
  | x :: xs => do
    let y ← f x
    let ys ← exceptMapList f xs
    .ok (y :: ys)

/-! External collaborator value types from `foundry_compilers`. The module
embeds them as opaque, pre-validated values that serialize and deserialize
through their own existing contract: `Remapping` as a JSON string, the
others as JSON objects (their own field lists). -/

/-- `foundry_compilers::remappings::Remapping`: opaque, serialized as its
string form. -/
structure Remapping where
  rule : String
deriving DecidableEq

def Remapping.toJson (r : Remapping) : Json := .str r.rule

def Remapping.fromJson : Json → Except String Remapping
  | .str s => .ok ⟨s⟩
  | _ => .error "expected remapping string"

/-- `foundry_compilers::artifacts::SettingsMetadata`: opaque struct,
serialized as a JSON object. -/
structure SettingsMetadata where
  fields : List (String × Json)

def SettingsMetadata.toJson (m : SettingsMetadata) : Json := .obj m.fields

def SettingsMetadata.fromJson : Json → Except String SettingsMetadata
  | .obj fs => .ok ⟨fs⟩
  | _ => .error "expected metadata object"

/-- `foundry_compilers::artifacts::OptimizerDetails`: opaque struct,
serialized as a JSON object. -/
structure OptimizerDetails where
  fields : List (String × Json)

def OptimizerDetails.toJson (d : OptimizerDetails) : Json := .obj d.fields

def OptimizerDetails.fromJson : Json → Except String OptimizerDetails
  | .obj fs => .ok ⟨fs⟩
  | _ => .error "expected optimizer details object"

/-- `foundry_compilers::artifacts::Libraries`: a map from source file to
library addresses, serialized as a JSON object; `Default` is the empty map. -/
structure Libraries where
  libs : List (String × Json)

def Libraries.toJson (l : Libraries) : Json := .obj l.libs

def Libraries.fromJson : Json → Except String Libraries
  | .obj fs => .ok ⟨fs⟩
  | _ => .error "expected libraries object"

/-- `Libraries::default()`: the empty map. -/
def Libraries.defaultVal : Libraries := ⟨[]⟩

/-- `foundry_compilers::artifacts::output_selection::OutputSelection`: a map
describing which compiler outputs to produce, serialized as a JSON object.
`Default` is the empty map. -/
structure OutputSelection where
  selection : List (String × Json)

def OutputSelection.toJson (o : OutputSelection) : Json := .obj o.selection

def OutputSelection.fromJson : Json → Except String OutputSelection
  | .obj fs => .ok ⟨fs⟩
  | _ => .error "expected output selection object"

/-- `OutputSelection::default()` (derived `Default`): the empty map. -/
def OutputSelection.defaultVal : OutputSelection := ⟨[]⟩

/-- Modelled from the spec: `OutputSelection::default_output_selection()`
from the external compilers crate, "the backend's standard output-selection
set" — every file and contract mapped to the standard artifact list. -/
def OutputSelection.default_output_selection : OutputSelection :=
  ⟨[("*", Json.obj [("*", Json.arr
      [Json.str "abi", Json.str "evm.bytecode",
       Json.str "evm.deployedBytecode", Json.str "evm.methodIdentifiers"])])]⟩

/-- `foundry_compilers::artifacts::Source`: a source file's content,
serialized as a JSON object with a `content` field. -/
structure Source where
  content : String
deriving DecidableEq

def Source.toJson (s : Source) : Json := .obj [("content", .str s.content)]

def Source.fromJson : Json → Except String Source
  | .obj fs =>
    match getField fs "content" with
    | some (.str c) => .ok ⟨c⟩
    | _ => .error "missing field content"
  | _ => .error "expected source object"

/-! The module's own types. -/

/-- `const SOLIDITY: &str = "Solidity"` -/
def SOLIDITY : String := "Solidity"

/-- Settings for the optimizer used in the zkSolc compiler
(`struct Optimizer`). -/
structure Optimizer where
  enabled : Option Bool
  mode : Option String
  details : Option OptimizerDetails
  fallback_to_optimizing_for_size : Option Bool
  disable_system_request_memoization : Bool

/-- `Optimizer`'s derived `Default`: every `Option` field `None`, the flag
`false`. -/
def Optimizer.defaultVal : Optimizer := ⟨none, none, none, none, false⟩

/-- serde serialization of `Optimizer`: field order is declaration order;
the last two fields carry `#[serde(rename = ...)]` camelCase names; no
field is skipped, so `None` is emitted as `null`. -/
def Optimizer.toJson (o : Optimizer) : Json :=
  .obj [("enabled", optionToJson Json.bool o.enabled),
        ("mode", optionToJson Json.str o.mode),
        ("details", optionToJson OptimizerDetails.toJson o.details),
        ("fallbackToOptimizingForSize",
          optionToJson Json.bool o.fallback_to_optimizing_for_size),
        ("disableSystemRequestMemoization",
          Json.bool o.disable_system_request_memoization)]

/-- serde deserialization of `Optimizer`: `Option` fields default to `None`
when missing; `disableSystemRequestMemoization` has no default and is
required. -/
def Optimizer.fromJson : Json → Except String Optimizer
  | .obj fs => do
    let enabled ← parseOptionField fs "enabled" parseBool
    let mode ← parseOptionField fs "mode" parseString
    let details ← parseOptionField fs "details" OptimizerDetails.fromJson
    let fallback ← parseOptionField fs "fallbackToOptimizingForSize" parseBool
    let disable ← requiredField fs "disableSystemRequestMemoization" parseBool
    .ok ⟨enabled, mode, details, fallback, disable⟩
  | _ => .error "expected optimizer object"

/-- Compiler settings for zkSolc (`struct Settings`,
`#[serde(rename_all = "camelCase")]`). -/
structure Settings where
  remappings : List Remapping
  optimizer : Optimizer
  metadata : Option SettingsMetadata
  output_selection : OutputSelection
  libraries : Libraries
  is_system : Bool
  force_evmla : Bool
  missing_libraries_path : Option String
  are_libraries_missing : Bool
  contracts_to_compile : List String

/-- `impl Default for Settings`: empty remappings, default optimizer, no
metadata, `OutputSelection::default_output_selection()`, empty libraries,
both mode flags false, no missing-libraries path, empty contract list. -/
def Settings.defaultVal : Settings :=
  { remappings := []
    optimizer := Optimizer.defaultVal
    metadata := none
    output_selection := OutputSelection.default_output_selection
    libraries := Libraries.defaultVal
    is_system := false
    force_evmla := false
    missing_libraries_path := none
    are_libraries_missing := false
    contracts_to_compile := [] }

/-- serde serialization of `Settings`: camelCase keys in declaration order;
`remappings` and `contractsToCompile` are skipped when empty
(`skip_serializing_if = "Vec::is_empty"`), `metadata` and
`missingLibrariesPath` when absent (`skip_serializing_if = "Option::is_none"`);
every other field is always emitted. -/
def Settings.toJson (s : Settings) : Json :=
  .obj ((if s.remappings.isEmpty then []
         else [("remappings", Json.arr (s.remappings.map Remapping.toJson))]) ++
        [("optimizer", s.optimizer.toJson)] ++
        (match s.metadata with
         | none => []
         | some m => [("metadata", m.toJson)]) ++
        [("outputSelection", s.output_selection.toJson),
         ("libraries", s.libraries.toJson),
         ("isSystem", Json.bool s.is_system),
         ("forceEvmla", Json.bool s.force_evmla)] ++
        (match s.missing_libraries_path with
         | none => []
         | some p => [("missingLibrariesPath", Json.str p)]) ++
        [("areLibrariesMissing", Json.bool s.are_libraries_missing)] ++
        (if s.contracts_to_compile.isEmpty then []
         else [("contractsToCompile",
                Json.arr (s.contracts_to_compile.map Json.str))]))

def parseRemappings : Json → Except String (List Remapping)
  | .arr xs => exceptMapList Remapping.fromJson xs
  | _ => .error "expected remappings array"

def parseStringList : Json → Except String (List String)
  | .arr xs => exceptMapList parseString xs
  | _ => .error "expected string array"

/-- serde deserialization of `Settings`: fields carrying `#[serde(default)]`
(`remappings`, `outputSelection`, `libraries`, `areLibrariesMissing`,
`contractsToCompile`) fall back to their type's `Default` when missing;
`Option` fields (`metadata`, `missingLibrariesPath`) fall back to `None`;
`optimizer`, `isSystem` and `forceEvmla` are required. -/
def Settings.fromJson : Json → Except String Settings
  | .obj fs => do
    let remappings ← defaultableField fs "remappings" [] parseRemappings
    let optimizer ← requiredField fs "optimizer" Optimizer.fromJson
    let metadata ← parseOptionField fs "metadata" SettingsMetadata.fromJson
    let output_selection ←
      defaultableField fs "outputSelection" OutputSelection.defaultVal
        OutputSelection.fromJson
    let libraries ←
      defaultableField fs "libraries" Libraries.defaultVal Libraries.fromJson
    let is_system ← requiredField fs "isSystem" parseBool
    let force_evmla ← requiredField fs "forceEvmla" parseBool
    let missing_libraries_path ← parseOptionField fs "missingLibrariesPath" parseString
    let are_libraries_missing ←
      defaultableField fs "areLibrariesMissing" false parseBool
    let contracts_to_compile ←
      defaultableField fs "contractsToCompile" [] parseStringList
    .ok ⟨remappings, optimizer, metadata, output_selection, libraries,
         is_system, force_evmla, missing_libraries_path,
         are_libraries_missing, contracts_to_compile⟩
  | _ => .error "expected settings object"

/-- Configuration for the zkSolc compiler (`struct ZkSolcConfig`). A
`PathBuf` is modelled as its string form. -/
structure ZkSolcConfig where
  compiler_path : String
  settings : Settings
  contracts_to_compile : Option (List String)
  avoid_contracts : Option (List String)

/-- A builder for `ZkSolcConfig` (`struct ZkSolcConfigBuilder`,
`#[derive(Default)]`). -/
structure ZkSolcConfigBuilder where
  compiler_path : String
  settings : Option Settings
  contracts_to_compile : Option (List String)
  avoid_contracts : Option (List String)

/-- `ZkSolcConfigBuilder::new()`, which is `Self::default()`. -/
def ZkSolcConfigBuilder.new : ZkSolcConfigBuilder :=
  { compiler_path := ""
    settings := none
    contracts_to_compile := none
    avoid_contracts := none }

/-- The fluent setter `ZkSolcConfigBuilder::compiler_path`. -/
def ZkSolcConfigBuilder.set_compiler_path (b : ZkSolcConfigBuilder)
    (path : String) : ZkSolcConfigBuilder :=
  { b with compiler_path := path }

/-- The fluent setter `ZkSolcConfigBuilder::settings`. -/
def ZkSolcConfigBuilder.set_settings (b : ZkSolcConfigBuilder)
    (settings : Settings) : ZkSolcConfigBuilder :=
  { b with settings := some settings }

/-- `ZkSolcConfigBuilder::build`: `settings` falls back to
`Settings::default()` via `unwrap_or_default`, everything else is passed
through; the result is always `Ok`. -/
def ZkSolcConfigBuilder.build (b : ZkSolcConfigBuilder) :
    Except String ZkSolcConfig :=
  .ok { compiler_path := b.compiler_path
        settings := b.settings.getD Settings.defaultVal
        contracts_to_compile := b.contracts_to_compile
        avoid_contracts := b.avoid_contracts }

/-- The builder's full public setter surface: exactly `compiler_path` and
`settings` exist; there is no setter touching `contracts_to_compile` or
`avoid_contracts`. -/
inductive BuilderOp where
  | compilerPath (path : String) : BuilderOp
  | settings (s : Settings) : BuilderOp

def applyOp (b : ZkSolcConfigBuilder) : BuilderOp → ZkSolcConfigBuilder
  | .compilerPath p => b.set_compiler_path p
  | .settings s => b.set_settings s

/-- Run an arbitrary chain of setter calls on a fresh builder. -/
def applyOps (ops : List BuilderOp) : ZkSolcConfigBuilder :=
  ops.foldl applyOp ZkSolcConfigBuilder.new

def pathStep (acc : Option String) : BuilderOp → Option String
  | .compilerPath p => some p
  | .settings _ => acc

def settingsStep (acc : Option Settings) : BuilderOp → Option Settings
  | .settings s => some s
  | .compilerPath _ => acc

/-- The last value handed to the `compiler_path` setter in a call chain. -/
def lastPathSet (ops : List BuilderOp) : Option String :=
  ops.foldl pathStep none

/-- The last value handed to the `settings` setter in a call chain. -/
def lastSettingsSet (ops : List BuilderOp) : Option Settings :=
  ops.foldl settingsStep none

/-- The alternative standard-JSON input used for verification
(`struct ZkStandardJsonCompilerInput`): `sources` is an ORDERED list of
(path, source) pairs, not a map. -/
structure ZkStandardJsonCompilerInput where
  language : String
  sources : List (String × Source)
  settings : Settings

/-- `ZkStandardJsonCompilerInput::new`: tags the language with the
`SOLIDITY` constant and stores the pair list and settings unchanged. -/
def ZkStandardJsonCompilerInput.new (sources : List (String × Source))
    (settings : Settings) : ZkStandardJsonCompilerInput :=
  { language := SOLIDITY, sources := sources, settings := settings }

/-- `serde_helpers::tuple_vec_map` serialization: walk the pair list in
order and emit one object field per pair — no sorting, no deduplication. -/
def sourcesToJson (sources : List (String × Source)) : Json :=
  .obj (sources.map fun ps => (ps.1, ps.2.toJson))

/-- `serde_helpers::tuple_vec_map` deserialization: read the object's
key/value entries in document order into a pair list. -/
def sourcesFromJson : Json → Except String (List (String × Source))
  | .obj fs =>
    exceptMapList (fun kv => (Source.fromJson kv.2).map fun s => (kv.1, s)) fs
  | _ => .error "expected sources object"

/-- serde serialization of `ZkStandardJsonCompilerInput`: the three fields
in declaration order, `sources` through the order-preserving adapter. -/
def ZkStandardJsonCompilerInput.toJson (i : ZkStandardJsonCompilerInput) : Json :=
  .obj [("language", Json.str i.language),
        ("sources", sourcesToJson i.sources),
        ("settings", i.settings.toJson)]

/-- serde deserialization of `ZkStandardJsonCompilerInput`: all three
fields are required. -/
def ZkStandardJsonCompilerInput.fromJson :
    Json → Except String ZkStandardJsonCompilerInput
  | .obj fs => do
    let language ← requiredField fs "language" parseString
    let sources ← requiredField fs "sources" sourcesFromJson
    let settings ← requiredField fs "settings" Settings.fromJson
    .ok ⟨language, sources, settings⟩
  | _ => .error "expected compiler input object"

end FoundryZkSync

namespace FoundryZkSync

/-! Builder invariants: how a chain of setter calls acts on each field. -/

theorem foldl_pathStep_or (ops : List BuilderOp) :
    ∀ acc : Option String,
      ops.foldl pathStep acc = (ops.foldl pathStep none).or acc := by
  induction ops with
  | nil => intro acc; simp
  | cons op ops ih =>
    intro acc
    cases op with
    | compilerPath p =>
      simp only [List.foldl_cons, pathStep]
      rw [ih (some p)]
      cases ops.foldl pathStep none <;> rfl
    | settings s =>
      simp only [List.foldl_cons, pathStep]
      exact ih acc

theorem foldl_settingsStep_or (ops : List BuilderOp) :
    ∀ acc : Option Settings,
      ops.foldl settingsStep acc = (ops.foldl settingsStep none).or acc := by
  induction ops with
  | nil => intro acc; simp
  | cons op ops ih =>
    intro acc
    cases op with
    | compilerPath p =>
      simp only [List.foldl_cons, settingsStep]
      exact ih acc
    | settings s =>
      simp only [List.foldl_cons, settingsStep]
      rw [ih (some s)]
      cases ops.foldl settingsStep none <;> rfl

theorem foldl_applyOp_compiler_path (ops : List BuilderOp) :
    ∀ b : ZkSolcConfigBuilder,
      (ops.foldl applyOp b).compiler_path =
        (lastPathSet ops).getD b.compiler_path := by
  induction ops with
  | nil => intro b; rfl
  | cons op ops ih =>
    intro b
    cases op with
    | compilerPath p =>
      show (ops.foldl applyOp (b.set_compiler_path p)).compiler_path =
        (ops.foldl pathStep (some p)).getD b.compiler_path
      rw [ih, foldl_pathStep_or ops (some p)]
      show (ops.foldl pathStep none).getD p =
        ((ops.foldl pathStep none).or (some p)).getD b.compiler_path
      cases ops.foldl pathStep none <;> rfl
    | settings s =>
      show (ops.foldl applyOp (b.set_settings s)).compiler_path =
        (ops.foldl pathStep none).getD b.compiler_path
      rw [ih]
      rfl

theorem foldl_applyOp_settings (ops : List BuilderOp) :
    ∀ b : ZkSolcConfigBuilder,
      (ops.foldl applyOp b).settings = (lastSettingsSet ops).or b.settings := by
  induction ops with
  | nil => intro b; rfl
  | cons op ops ih =>
    intro b
    cases op with
    | compilerPath p =>
      show (ops.foldl applyOp (b.set_compiler_path p)).settings =
        (ops.foldl settingsStep none).or b.settings
      rw [ih]
      rfl
    | settings s =>
      show (ops.foldl applyOp (b.set_settings s)).settings =
        (ops.foldl settingsStep (some s)).or b.settings
      rw [ih, foldl_settingsStep_or ops (some s)]
      show (ops.foldl settingsStep none).or (some s) =
        ((ops.foldl settingsStep none).or (some s)).or b.settings
      cases ops.foldl settingsStep none <;> rfl

theorem foldl_applyOp_contracts (ops : List BuilderOp) :
    ∀ b : ZkSolcConfigBuilder,
      (ops.foldl applyOp b).contracts_to_compile = b.contracts_to_compile := by
  induction ops with
  | nil => intro b; rfl
  | cons op ops ih =>
    intro b
    cases op <;>
      simp only [List.foldl_cons, applyOp, ih,
        ZkSolcConfigBuilder.set_compiler_path, ZkSolcConfigBuilder.set_settings]

theorem foldl_applyOp_avoid (ops : List BuilderOp) :
    ∀ b : ZkSolcConfigBuilder,
      (ops.foldl applyOp b).avoid_contracts = b.avoid_contracts := by
  induction ops with
  | nil => intro b; rfl
  | cons op ops ih =>
    intro b
    cases op <;>
      simp only [List.foldl_cons, applyOp, ih,
        ZkSolcConfigBuilder.set_compiler_path, ZkSolcConfigBuilder.set_settings]

end FoundryZkSync

namespace FoundryZkSync

/-- C3: for every sources sequence and every `Settings` value,
`ZkStandardJsonCompilerInput::new(sources, settings)` sets the `language`
field to the literal string "Solidity", regardless of the inputs. -/
theorem claim_c3_language_tag (sources : List (String × Source))
    (settings : Settings) :
    (ZkStandardJsonCompilerInput.new sources settings).language = "Solidity" :=
  rfl

/-- C4: `Settings::default()` produces exactly: empty remappings, a default
`Optimizer` (the four `Option` fields absent and
`disable_system_request_memoization` false), no metadata, the backend's
standard output-selection set, empty libraries, `is_system = false`,
`force_evmla = false`, no `missing_libraries_path`,
`are_libraries_missing = false`, and an empty `contracts_to_compile` list. -/
theorem claim_c4_settings_default :
    Settings.defaultVal.remappings = [] ∧
    Settings.defaultVal.optimizer = Optimizer.defaultVal ∧
    Settings.defaultVal.optimizer.enabled = none ∧
    Settings.defaultVal.optimizer.mode = none ∧
    Settings.defaultVal.optimizer.details = none ∧
    Settings.defaultVal.optimizer.fallback_to_optimizing_for_size = none ∧
    Settings.defaultVal.optimizer.disable_system_request_memoization = false ∧
    Settings.defaultVal.metadata = none ∧
    Settings.defaultVal.output_selection = OutputSelection.default_output_selection ∧
    Settings.defaultVal.libraries.libs = [] ∧
    Settings.defaultVal.is_system = false ∧
    Settings.defaultVal.force_evmla = false ∧
    Settings.defaultVal.missing_libraries_path = none ∧
    Settings.defaultVal.are_libraries_missing = false ∧
    Settings.defaultVal.contracts_to_compile = [] :=
  ⟨rfl, rfl, rfl, rfl, rfl, rfl, rfl, rfl, rfl, rfl, rfl, rfl, rfl, rfl, rfl⟩

/-- C7: `Settings::default()` is deterministic — it is a pure constant of
the embedding, so any two values obtained from it are equal (field-for-field
identical); no hidden global state can influence the result. -/
theorem claim_c7_default_stable (s1 s2 : Settings)
    (h1 : s1 = Settings.defaultVal) (h2 : s2 = Settings.defaultVal) :
    s1 = s2 := by
  rw [h1, h2]

/-- Witness for C7 at two concrete calls of the default constructor. -/
theorem claim_c7_default_stable_witness :
    Settings.defaultVal = Settings.defaultVal ∧
    Settings.defaultVal = Settings.defaultVal :=
  ⟨rfl, claim_c7_default_stable Settings.defaultVal Settings.defaultVal rfl rfl⟩

/-- C6: for every chain of setter calls on a fresh builder, `build()`
returns `Ok` (never an error); the resulting config's `settings` is
`Settings::default()` when the settings setter was never called, and every
field that was set reflects exactly the last value assigned to its setter
(`PathBuf::default()`, the empty path, when `compiler_path` was never
set). -/
theorem claim_c6_builder_completeness (ops : List BuilderOp) :
    (applyOps ops).build =
      .ok { compiler_path := (lastPathSet ops).getD ""
            settings := (lastSettingsSet ops).getD Settings.defaultVal
            contracts_to_compile := none
            avoid_contracts := none } := by
  have h1 := foldl_applyOp_compiler_path ops ZkSolcConfigBuilder.new
  have h2 := foldl_applyOp_settings ops ZkSolcConfigBuilder.new
  have h3 := foldl_applyOp_contracts ops ZkSolcConfigBuilder.new
  have h4 := foldl_applyOp_avoid ops ZkSolcConfigBuilder.new
  simp only [applyOps, ZkSolcConfigBuilder.build, ZkSolcConfigBuilder.new] at *
  rw [h1, h2, h3, h4]
  cases lastSettingsSet ops <;> rfl

/-- C10: the builder exposes no setter for `contracts_to_compile` or
`avoid_contracts`, so every config built from any chain of the setters that
do exist has both fields `None`. -/
theorem claim_c10_no_contracts_setter (ops : List BuilderOp) :
    ∃ cfg, (applyOps ops).build = .ok cfg ∧
      cfg.contracts_to_compile = none ∧ cfg.avoid_contracts = none := by
  refine ⟨_, rfl, ?_, ?_⟩
  · exact foldl_applyOp_contracts ops ZkSolcConfigBuilder.new
  · exact foldl_applyOp_avoid ops ZkSolcConfigBuilder.new

end FoundryZkSync

namespace FoundryZkSync

theorem Source.toJson_inj : Function.Injective Source.toJson := by
  intro a b h
  cases a
  cases b
  simpa [Source.toJson] using h

theorem sourceFields_inj :
    Function.Injective (fun ps : String × Source => (ps.1, ps.2.toJson)) := by
  intro a b h
  cases a
  cases b
  simp only [Prod.mk.injEq] at h
  exact Prod.ext h.1 (Source.toJson_inj h.2)

theorem sourcesToJson_inj : Function.Injective sourcesToJson := by
  intro l1 l2 h
  simp only [sourcesToJson, Json.obj.injEq] at h
  exact List.map_injective_iff.mpr sourceFields_inj h

theorem map_fst_sourceFields (l : List (String × Source)) :
    (l.map fun ps => (ps.1, ps.2.toJson)).map Prod.fst = l.map Prod.fst := by
  induction l with
  | nil => rfl
  | cons ps l ih => simp [ih]

/-- C2: serialization emits the `sources` object with keys in the exact
order of the pair sequence (first pair's path first, not sorted); two
inputs holding the same pairs in different orders serialize to different
JSON documents; the empty sequence serializes to an empty JSON object for
`sources`. -/
theorem claim_c2_order_emission (s1 s2 : List (String × Source)) (st : Settings)
    (hperm : s1.Perm s2) (hne : s1 ≠ s2) :
    ZkStandardJsonCompilerInput.toJson (ZkStandardJsonCompilerInput.new s1 st) =
      Json.obj [("language", Json.str "Solidity"),
                ("sources", sourcesToJson s1),
                ("settings", st.toJson)] ∧
    (sourcesToJson s1).objKeys = s1.map Prod.fst ∧
    ZkStandardJsonCompilerInput.toJson (ZkStandardJsonCompilerInput.new s1 st) ≠
      ZkStandardJsonCompilerInput.toJson (ZkStandardJsonCompilerInput.new s2 st) ∧
    sourcesToJson [] = Json.obj [] := by
  refine ⟨rfl, ?_, ?_, rfl⟩
  · simp only [sourcesToJson, Json.objKeys]
    exact map_fst_sourceFields s1
  · intro h
    simp only [ZkStandardJsonCompilerInput.toJson, ZkStandardJsonCompilerInput.new,
      Json.obj.injEq, List.cons.injEq, Prod.mk.injEq, and_true, true_and] at h
    exact hne (sourcesToJson_inj h)

/-- Witness for C2: two two-element sequences holding the same pairs in
swapped (non-alphabetical vs alphabetical) order. -/
theorem claim_c2_order_emission_witness :
    ([("z.sol", Source.mk "Z"), ("a.sol", Source.mk "A")].Perm
      [("a.sol", Source.mk "A"), ("z.sol", Source.mk "Z")] ∧
     [("z.sol", Source.mk "Z"), ("a.sol", Source.mk "A")] ≠
      [("a.sol", Source.mk "A"), ("z.sol", Source.mk "Z")]) ∧
    (ZkStandardJsonCompilerInput.toJson
        (ZkStandardJsonCompilerInput.new
          [("z.sol", Source.mk "Z"), ("a.sol", Source.mk "A")] Settings.defaultVal) =
      Json.obj [("language", Json.str "Solidity"),
                ("sources", sourcesToJson [("z.sol", Source.mk "Z"), ("a.sol", Source.mk "A")]),
                ("settings", Settings.defaultVal.toJson)] ∧
     (sourcesToJson [("z.sol", Source.mk "Z"), ("a.sol", Source.mk "A")]).objKeys =
      [("z.sol", Source.mk "Z"), ("a.sol", Source.mk "A")].map Prod.fst ∧
     ZkStandardJsonCompilerInput.toJson
        (ZkStandardJsonCompilerInput.new
          [("z.sol", Source.mk "Z"), ("a.sol", Source.mk "A")] Settings.defaultVal) ≠
      ZkStandardJsonCompilerInput.toJson
        (ZkStandardJsonCompilerInput.new
          [("a.sol", Source.mk "A"), ("z.sol", Source.mk "Z")] Settings.defaultVal) ∧
     sourcesToJson [] = Json.obj []) :=
  ⟨⟨List.Perm.swap ("a.sol", Source.mk "A") ("z.sol", Source.mk "Z") [],
    by decide⟩,
   claim_c2_order_emission _ _ Settings.defaultVal
     (List.Perm.swap ("a.sol", Source.mk "A") ("z.sol", Source.mk "Z") [])
     (by decide)⟩

end FoundryZkSync

namespace FoundryZkSync

/-- C5: serializing a `Settings` whose `remappings` is empty, `metadata`
absent, `missing_libraries_path` absent and `contracts_to_compile` empty
produces a JSON object containing none of the keys `remappings`,
`metadata`, `missingLibrariesPath`, `contractsToCompile` (they are omitted
entirely, not emitted as `null`). -/
theorem claim_c5_omission_on_default (s : Settings)
    (h1 : s.remappings = []) (h2 : s.metadata = none)
    (h3 : s.missing_libraries_path = none) (h4 : s.contracts_to_compile = []) :
    Settings.toJson s =
      Json.obj [("optimizer", s.optimizer.toJson),
                ("outputSelection", s.output_selection.toJson),
                ("libraries", s.libraries.toJson),
                ("isSystem", Json.bool s.is_system),
                ("forceEvmla", Json.bool s.force_evmla),
                ("areLibrariesMissing", Json.bool s.are_libraries_missing)] ∧
    "remappings" ∉ (Settings.toJson s).objKeys ∧
    "metadata" ∉ (Settings.toJson s).objKeys ∧
    "missingLibrariesPath" ∉ (Settings.toJson s).objKeys ∧
    "contractsToCompile" ∉ (Settings.toJson s).objKeys := by
  have he : Settings.toJson s =
      Json.obj [("optimizer", s.optimizer.toJson),
                ("outputSelection", s.output_selection.toJson),
                ("libraries", s.libraries.toJson),
                ("isSystem", Json.bool s.is_system),
                ("forceEvmla", Json.bool s.force_evmla),
                ("areLibrariesMissing", Json.bool s.are_libraries_missing)] := by
    simp [Settings.toJson, h1, h2, h3, h4]
  refine ⟨he, ?_, ?_, ?_, ?_⟩ <;> simp [he, Json.objKeys]

/-- Witness for C5 at `Settings::default()`, which has all four fields at
their defaults. -/
theorem claim_c5_omission_on_default_witness :
    (Settings.defaultVal.remappings = [] ∧ Settings.defaultVal.metadata = none ∧
     Settings.defaultVal.missing_libraries_path = none ∧
     Settings.defaultVal.contracts_to_compile = []) ∧
    (Settings.toJson Settings.defaultVal =
      Json.obj [("optimizer", Settings.defaultVal.optimizer.toJson),
                ("outputSelection", Settings.defaultVal.output_selection.toJson),
                ("libraries", Settings.defaultVal.libraries.toJson),
                ("isSystem", Json.bool Settings.defaultVal.is_system),
                ("forceEvmla", Json.bool Settings.defaultVal.force_evmla),
                ("areLibrariesMissing", Json.bool Settings.defaultVal.are_libraries_missing)] ∧
     "remappings" ∉ (Settings.toJson Settings.defaultVal).objKeys ∧
     "metadata" ∉ (Settings.toJson Settings.defaultVal).objKeys ∧
     "missingLibrariesPath" ∉ (Settings.toJson Settings.defaultVal).objKeys ∧
     "contractsToCompile" ∉ (Settings.toJson Settings.defaultVal).objKeys) :=
  ⟨⟨rfl, rfl, rfl, rfl⟩,
   claim_c5_omission_on_default Settings.defaultVal rfl rfl rfl rfl⟩

end FoundryZkSync

namespace FoundryZkSync

theorem filter_key_sourceFields (l : List (String × Source)) (p : String) :
    ((l.map fun ps => (ps.1, ps.2.toJson)).filter fun f => f.1 == p) =
      (l.filter fun ps => ps.1 == p).map fun ps => (ps.1, ps.2.toJson) := by
  induction l with
  | nil => rfl
  | cons ps l ih =>
    simp only [List.map_cons, List.filter_cons]
    cases h : (ps.1 == p) <;> simp [h, ih]

theorem filter_key_eq_nil {l : List (String × Source)} {p : String}
    (hp : p ∉ l.map Prod.fst) :
    (l.filter fun ps => ps.1 == p) = [] := by
  induction l with
  | nil => rfl
  | cons ps l ih =>
    simp only [List.map_cons, List.mem_cons, not_or] at hp
    have h1 : (ps.1 == p) = false := by
      simp only [beq_eq_false_iff_ne, ne_eq]
      exact fun h => hp.1 h.symm
    simp [List.filter_cons, h1, ih hp.2]

/-- C8: duplicate paths handed to `ZkStandardJsonCompilerInput::new` are not
deduplicated: the stored sequence retains every pair, the serialized
`sources` object contains a duplicate key, and under standard JSON object
parse semantics (later duplicate key overwrites earlier) the last-listed
pair's content is the one observed. -/
theorem claim_c8_duplicate_paths (pre mid post : List (String × Source))
    (p : String) (a b : Source) (st : Settings)
    (hp : p ∉ post.map Prod.fst) :
    (ZkStandardJsonCompilerInput.new (pre ++ (p, a) :: mid ++ (p, b) :: post) st).sources =
      pre ++ (p, a) :: mid ++ (p, b) :: post ∧
    ¬ (sourcesToJson (pre ++ (p, a) :: mid ++ (p, b) :: post)).objKeys.Nodup ∧
    (sourcesToJson (pre ++ (p, a) :: mid ++ (p, b) :: post)).objGetLast p =
      some (Source.toJson b) := by
  refine ⟨rfl, ?_, ?_⟩
  · intro hnd
    have hkeys : (sourcesToJson (pre ++ (p, a) :: mid ++ (p, b) :: post)).objKeys =
        pre.map Prod.fst ++ p :: (mid.map Prod.fst ++ p :: post.map Prod.fst) := by
      simp only [sourcesToJson, Json.objKeys, map_fst_sourceFields]
      simp
    rw [hkeys] at hnd
    have hcount := List.nodup_iff_count_le_one.mp hnd p
    simp [List.count_append, List.count_cons] at hcount
    omega
  · simp only [sourcesToJson, Json.objGetLast]
    rw [filter_key_sourceFields]
    have hfilter : ((pre ++ (p, a) :: mid ++ (p, b) :: post).filter
        fun ps => ps.1 == p) =
        (pre.filter fun ps => ps.1 == p) ++
          (p, a) :: ((mid.filter fun ps => ps.1 == p) ++ [(p, b)]) := by
      simp [List.filter_append, List.filter_cons, filter_key_eq_nil hp]
    rw [hfilter]
    have hassoc : ((pre.filter fun ps : String × Source => ps.1 == p) ++
          (p, a) :: ((mid.filter fun ps => ps.1 == p) ++ [(p, b)])) =
        ((pre.filter fun ps : String × Source => ps.1 == p) ++
          (p, a) :: (mid.filter fun ps => ps.1 == p)) ++ [(p, b)] := by
      simp
    rw [hassoc, List.map_append]
    simp only [List.map_cons, List.map_nil, List.getLast?_concat,
      Option.map_some']

/-- Witness for C8: the sequence `[("dup", A), ("x", X), ("dup", B)]`. -/
theorem claim_c8_duplicate_paths_witness :
    ("dup" ∉ ([] : List (String × Source)).map Prod.fst) ∧
    ((ZkStandardJsonCompilerInput.new
        ([] ++ ("dup", Source.mk "A") :: [("x", Source.mk "X")] ++
          ("dup", Source.mk "B") :: []) Settings.defaultVal).sources =
      [] ++ ("dup", Source.mk "A") :: [("x", Source.mk "X")] ++
        ("dup", Source.mk "B") :: [] ∧
     ¬ (sourcesToJson ([] ++ ("dup", Source.mk "A") :: [("x", Source.mk "X")] ++
          ("dup", Source.mk "B") :: [])).objKeys.Nodup ∧
     (sourcesToJson ([] ++ ("dup", Source.mk "A") :: [("x", Source.mk "X")] ++
          ("dup", Source.mk "B") :: [])).objGetLast "dup" =
      some (Source.toJson (Source.mk "B"))) :=
  ⟨by simp,
   claim_c8_duplicate_paths [] [("x", Source.mk "X")] [] "dup"
     (Source.mk "A") (Source.mk "B") Settings.defaultVal (by simp)⟩

end FoundryZkSync

namespace FoundryZkSync

theorem remapping_fromJson_toJson (r : Remapping) :
    Remapping.fromJson r.toJson = .ok r := rfl

theorem settingsMetadata_fromJson_toJson (m : SettingsMetadata) :
    SettingsMetadata.fromJson m.toJson = .ok m := rfl

theorem optimizerDetails_fromJson_toJson (d : OptimizerDetails) :
    OptimizerDetails.fromJson d.toJson = .ok d := rfl

theorem libraries_fromJson_toJson (l : Libraries) :
    Libraries.fromJson l.toJson = .ok l := rfl

theorem outputSelection_fromJson_toJson (o : OutputSelection) :
    OutputSelection.fromJson o.toJson = .ok o := rfl

theorem source_fromJson_toJson (s : Source) :
    Source.fromJson s.toJson = .ok s := rfl

theorem mapList_remapping_toJson (rs : List Remapping) :
    exceptMapList Remapping.fromJson (rs.map Remapping.toJson) = .ok rs := by
  induction rs with
  | nil => rfl
  | cons r rs ih =>
    simp only [List.map_cons, exceptMapList, remapping_fromJson_toJson, ih]
    rfl

theorem mapList_string_toJson (xs : List String) :
    exceptMapList parseString (xs.map Json.str) = .ok xs := by
  induction xs with
  | nil => rfl
  | cons x xs ih =>
    simp only [List.map_cons, exceptMapList, parseString, ih]
    rfl

theorem mapList_sources_toJson (l : List (String × Source)) :
    exceptMapList (fun kv => (Source.fromJson kv.2).map fun s => (kv.1, s))
      (l.map fun ps => (ps.1, ps.2.toJson)) = .ok l := by
  induction l with
  | nil => rfl
  | cons ps l ih =>
    simp only [List.map_cons, exceptMapList, source_fromJson_toJson, ih]
    rfl

theorem sourcesFromJson_toJson (l : List (String × Source)) :
    sourcesFromJson (sourcesToJson l) = .ok l := by
  simp [sourcesFromJson, sourcesToJson, mapList_sources_toJson]

theorem optimizer_fromJson_toJson (o : Optimizer) :
    Optimizer.fromJson o.toJson = .ok o := by
  obtain ⟨en, mo, de, fb, di⟩ := o
  cases en <;> cases mo <;> cases de <;> cases fb <;> rfl

end FoundryZkSync

namespace FoundryZkSync

theorem exceptOkBind {α β : Type} (a : α) (f : α → Except String β) :
    (Except.ok a : Except String α) >>= f = f a := rfl

theorem exceptMapOk {α β : Type} (g : α → β) (a : α) :
    Except.map g (Except.ok a : Except String α) = .ok (g a) := rfl

theorem mapList_remapping_cons (r : Remapping) (rs : List Remapping) :
    exceptMapList Remapping.fromJson (r.toJson :: rs.map Remapping.toJson) =
      .ok (r :: rs) := by
  have h := mapList_remapping_toJson (r :: rs)
  simpa using h

theorem mapList_string_cons (x : String) (xs : List String) :
    exceptMapList parseString (Json.str x :: xs.map Json.str) = .ok (x :: xs) := by
  have h := mapList_string_toJson (x :: xs)
  simpa using h

theorem settings_fromJson_toJson (s : Settings) :
    Settings.fromJson s.toJson = .ok s := by
  obtain ⟨rem, opt, md, os, lib, sys, fe, mlp, alm, ctc⟩ := s
  cases rem <;> cases md <;> cases mlp <;> cases ctc <;>
    simp [Settings.toJson, Settings.fromJson, getField, List.lookup,
      parseOptionField, requiredField, defaultableField, parseRemappings,
      parseStringList,
      mapList_remapping_toJson, mapList_string_toJson,
      mapList_remapping_cons, mapList_string_cons,
      exceptOkBind, exceptMapOk,
      optimizer_fromJson_toJson, SettingsMetadata.fromJson,
      SettingsMetadata.toJson, OutputSelection.fromJson, OutputSelection.toJson,
      Libraries.fromJson, Libraries.toJson, parseBool, parseString]

end FoundryZkSync

namespace FoundryZkSync

/-- C1: for every ordered sequence of (path, source) pairs (empty, a
singleton, or longer, paths in any order), constructing a
`ZkStandardJsonCompilerInput` from it, serializing to JSON and
deserializing back yields the input unchanged — in particular a `sources`
sequence equal to the original, with the pairs in the same order. -/
theorem claim_c1_sources_round_trip (sources : List (String × Source))
    (settings : Settings) :
    ZkStandardJsonCompilerInput.fromJson
        (ZkStandardJsonCompilerInput.toJson
          (ZkStandardJsonCompilerInput.new sources settings)) =
      .ok (ZkStandardJsonCompilerInput.new sources settings) := by
  simp [ZkStandardJsonCompilerInput.toJson, ZkStandardJsonCompilerInput.fromJson,
    ZkStandardJsonCompilerInput.new, requiredField, getField, List.lookup,
    parseString, sourcesFromJson_toJson, settings_fromJson_toJson,
    exceptOkBind, SOLIDITY]

end FoundryZkSync

namespace FoundryZkSync

theorem getField_eq_none {fs : List (String × Json)} {name : String}
    (h : name ∉ fs.map Prod.fst) : getField fs name = none := by
  induction fs with
  | nil => rfl
  | cons kv fs ih =>
    obtain ⟨k, v⟩ := kv
    simp only [List.map_cons, List.mem_cons, not_or] at h
    have hne : (name == k) = false := by
      simp only [beq_eq_false_iff_ne, ne_eq]
      exact h.1
    simp only [getField, List.lookup, hne] at ih ⊢
    exact ih h.2

theorem bind_isOk_eq_false {α β : Type} (x : Except String α)
    (f : α → Except String β) (h : ∀ a, (f a).isOk = false) :
    (x >>= f).isOk = false := by
  cases x with
  | error e => rfl
  | ok a => exact h a

theorem settings_fromJson_missing_required (fs : List (String × Json))
    (hmiss : "optimizer" ∉ fs.map Prod.fst ∨ "isSystem" ∉ fs.map Prod.fst ∨
      "forceEvmla" ∉ fs.map Prod.fst) :
    (Settings.fromJson (.obj fs)).isOk = false := by
  simp only [Settings.fromJson]
  rcases hmiss with h | h | h
  · apply bind_isOk_eq_false
    intro rem
    simp only [requiredField, getField_eq_none h]
    rfl
  · apply bind_isOk_eq_false
    intro rem
    apply bind_isOk_eq_false
    intro opt
    apply bind_isOk_eq_false
    intro md
    apply bind_isOk_eq_false
    intro os
    apply bind_isOk_eq_false
    intro lib
    simp only [requiredField, getField_eq_none h]
    rfl
  · apply bind_isOk_eq_false
    intro rem
    apply bind_isOk_eq_false
    intro opt
    apply bind_isOk_eq_false
    intro md
    apply bind_isOk_eq_false
    intro os
    apply bind_isOk_eq_false
    intro lib
    apply bind_isOk_eq_false
    intro sys
    simp only [requiredField, getField_eq_none h]
    rfl

theorem settings_fromJson_minimal (optJ : Json) (opt : Optimizer)
    (b1 b2 : Bool) (hopt : Optimizer.fromJson optJ = .ok opt) :
    Settings.fromJson
        (.obj [("optimizer", optJ), ("isSystem", .bool b1),
               ("forceEvmla", .bool b2)]) =
      .ok ⟨[], opt, none, OutputSelection.defaultVal, Libraries.defaultVal,
           b1, b2, none, false, []⟩ := by
  simp [Settings.fromJson, requiredField, parseOptionField, defaultableField,
    getField, List.lookup, hopt, parseBool, exceptOkBind,
    OutputSelection.defaultVal, Libraries.defaultVal]

/-- C9: deserializing `Settings` fails when any of `optimizer`, `isSystem`
or `forceEvmla` is missing from the JSON object, while all the remaining
keys may be absent: they are filled with their defaults (empty remappings,
no metadata, `OutputSelection::default()`, `Libraries::default()`, no
missing-libraries path, `areLibrariesMissing = false`, empty contract
list) without error. -/
theorem claim_c9_required_fields (fs : List (String × Json)) (optJ : Json)
    (opt : Optimizer) (b1 b2 : Bool)
    (hmiss : "optimizer" ∉ fs.map Prod.fst ∨ "isSystem" ∉ fs.map Prod.fst ∨
      "forceEvmla" ∉ fs.map Prod.fst)
    (hopt : Optimizer.fromJson optJ = .ok opt) :
    (Settings.fromJson (.obj fs)).isOk = false ∧
    Settings.fromJson
        (.obj [("optimizer", optJ), ("isSystem", .bool b1),
               ("forceEvmla", .bool b2)]) =
      .ok ⟨[], opt, none, OutputSelection.defaultVal, Libraries.defaultVal,
           b1, b2, none, false, []⟩ :=
  ⟨settings_fromJson_missing_required fs hmiss,
   settings_fromJson_minimal optJ opt b1 b2 hopt⟩

/-- Witness for C9: the empty object misses all three required keys; a
minimal three-key object deserializes with every defaultable field at its
default. -/
theorem claim_c9_required_fields_witness :
    (("optimizer" ∉ ([] : List (String × Json)).map Prod.fst ∨
      "isSystem" ∉ ([] : List (String × Json)).map Prod.fst ∨
      "forceEvmla" ∉ ([] : List (String × Json)).map Prod.fst) ∧
     Optimizer.fromJson
        (Json.obj [("disableSystemRequestMemoization", Json.bool false)]) =
      .ok ⟨none, none, none, none, false⟩) ∧
    ((Settings.fromJson (.obj [])).isOk = false ∧
     Settings.fromJson
        (.obj [("optimizer",
                Json.obj [("disableSystemRequestMemoization", Json.bool false)]),
               ("isSystem", .bool true), ("forceEvmla", .bool false)]) =
      .ok ⟨[], ⟨none, none, none, none, false⟩, none, OutputSelection.defaultVal,
           Libraries.defaultVal, true, false, none, false, []⟩) :=
  ⟨⟨Or.inl (by simp), rfl⟩,
   claim_c9_required_fields [] _ _ true false (Or.inl (by simp)) rfl⟩

end FoundryZkSync
